import Mathlib

/-!
Verification of the order-book fill calculator and exchange comparator
(src/orderbook.js and its CLI entry point).

Numbers: the JavaScript source computes with IEEE doubles. We model the
number domain as `JNum`: a finite value carried as an exact rational,
plus NaN and the two infinities, with the JavaScript semantics of
arithmetic, comparison and `toFixed(8)`/`parseFloat` round-tripping on
those values (binary rounding of finite doubles is idealized away; the
spec's tolerance statements are phrased with a 1e-8 slack that absorbs
it). Price levels arrive from the exchanges as decimal strings and are
read with `parseFloat`; we model a parsed level directly as its numeric
value.
-/

/-- A JavaScript number: a finite value (as an exact rational), NaN, or an
infinity. The Boolean on `inf` is true for positive infinity. -/
inductive JNum where
  | fin : ℚ → JNum
  | nan : JNum
  | inf : Bool → JNum
deriving DecidableEq, Repr

namespace JNum

/-- JavaScript addition. -/
def add : JNum → JNum → JNum
  | fin a, fin b => fin (a + b)
  | nan, _ => nan
  | _, nan => nan
  | inf s, fin _ => inf s
  | fin _, inf s => inf s
  | inf s, inf t => if s = t then inf s else nan

/-- JavaScript negation. -/
def neg : JNum → JNum
  | fin a => fin (-a)
  | nan => nan
  | inf s => inf (!s)

/-- JavaScript subtraction. -/
def sub (a b : JNum) : JNum := add a (neg b)

/-- JavaScript multiplication. -/
def mul : JNum → JNum → JNum
  | fin a, fin b => fin (a * b)
  | nan, _ => nan
  | _, nan => nan
  | inf s, fin b => if b = 0 then nan else inf (s = decide (0 < b))
  | fin a, inf s => if a = 0 then nan else inf (s = decide (0 < a))
  | inf s, inf t => inf (s = t)

/-- JavaScript division. -/
def div : JNum → JNum → JNum
  | fin a, fin b =>
      if b = 0 then (if a = 0 then nan else inf (decide (0 < a))) else fin (a / b)
  | nan, _ => nan
  | _, nan => nan
  | fin _, inf _ => fin 0
  | inf s, fin b => if b = 0 then inf s else inf (s = decide (0 < b))
  | inf _, inf _ => nan

/-- JavaScript comparison a less-or-equal b (false whenever NaN is involved). -/
def jle : JNum → JNum → Bool
  | fin a, fin b => decide (a ≤ b)
  | nan, _ => false
  | _, nan => false
  | inf s, fin _ => !s
  | fin _, inf s => s
  | inf s, inf t => !s || t

/-- JavaScript comparison a strictly-less b (false whenever NaN is involved). -/
def jlt : JNum → JNum → Bool
  | fin a, fin b => decide (a < b)
  | nan, _ => false
  | _, nan => false
  | inf s, fin _ => !s
  | fin _, inf s => s
  | inf s, inf t => !s && t

/-- JavaScript strict equality (NaN equals nothing, not even itself). -/
def jeq : JNum → JNum → Bool
  | fin a, fin b => decide (a = b)
  | inf s, inf t => s = t
  | _, _ => false

/-- Math.abs. -/
def jabs : JNum → JNum
  | fin a => fin |a|
  | nan => nan
  | inf _ => inf true

/-- Math.min of two numbers (NaN if either argument is NaN). -/
def jmin (a b : JNum) : JNum :=
  match a, b with
  | nan, _ => nan
  | _, nan => nan
  | x, y => if jlt x y then x else y

/-- The value is NaN. -/
def isNaN : JNum → Bool
  | nan => true
  | _ => false

end JNum

/-- Rounding a rational to 8 decimal places, the idealized effect of
JavaScript toFixed(8) followed by parseFloat on a finite value. -/
def round8 (x : ℚ) : ℚ := (round (x * 100000000) : ℤ) / 100000000

/-- The toFixed(8)/parseFloat round trip on a JavaScript number: rounds a
finite value to 8 decimal places; NaN and the infinities print as "NaN"
and "Infinity"/"-Infinity" and parse back to themselves. -/
def jround8 : JNum → JNum
  | JNum.fin a => JNum.fin (round8 a)
  | JNum.nan => JNum.nan
  | JNum.inf s => JNum.inf s

/-- The error kinds raised by the source, one per distinct throw site kind:
the fill calculator's liquidity throw, the comparator's amount guard, its
zero-fill check and its generic catch-all rethrow, and the two failure
kinds of the external order-book fetch. -/
inductive Err where
  | invalidAmount
  | insufficientLiquidity
  | zeroFilled
  | fetchError
  | validationError
  | comparisonFailed
deriving DecidableEq, Repr

/-- The record returned by calculateUsdtNeeded (src/orderbook.js lines
118-123). -/
structure FillResult where
  usdtNeeded : JNum
  filledBtc : JNum
  unfilledBtc : JNum
  isPartial : Bool
deriving DecidableEq, Repr

/-- The for-loop of calculateUsdtNeeded (src/orderbook.js lines 92-106):
walks the ask levels carrying (remaining, totalCost, filled); takes the
whole remainder and stops when the level covers it, otherwise consumes
the level and continues. -/
def fillLoop : List (JNum × JNum) → JNum → JNum → JNum → JNum × JNum × JNum
  | [], remaining, totalCost, filled => (remaining, totalCost, filled)
  | (price, quantity) :: rest, remaining, totalCost, filled =>
      if JNum.jle remaining quantity then
        (JNum.fin 0, totalCost.add (remaining.mul price), filled.add remaining)
      else
        fillLoop rest (remaining.sub quantity) (totalCost.add (quantity.mul price))
          (filled.add quantity)

/-- calculateUsdtNeeded (src/orderbook.js lines 87-124): runs the walk,
resets remaining to the full amount when nothing was filled, fails when
the fill is incomplete and partial fills are disallowed, and otherwise
returns all quantities rounded to 8 decimal places. -/
def calculateUsdtNeeded (asks : List (JNum × JNum)) (btcAmount : JNum)
    (partialFill : Bool := false) : Except Err FillResult :=
  let w := fillLoop asks btcAmount (JNum.fin 0) (JNum.fin 0)
  let totalCost := w.2.1
  let filled := w.2.2
  let remaining := if JNum.jeq filled (JNum.fin 0) then btcAmount else w.1
  let isFilled := JNum.jeq remaining (JNum.fin 0)
  if !isFilled && !partialFill then
    Except.error Err.insufficientLiquidity
  else
    Except.ok
      { usdtNeeded := jround8 totalCost
        filledBtc := jround8 filled
        unfilledBtc := jround8 remaining
        isPartial := !isFilled }

/-- The argument actually passed to compareExchanges and runComparison: a
number, or a value of some other JavaScript type (the typeof guard at
src/orderbook.js line 132 distinguishes exactly these two cases). -/
inductive JsArg where
  | num : JNum → JsArg
  | other : JsArg
deriving DecidableEq, Repr

/-- The amount guard shared by compareExchanges (line 132) and
runComparison (line 197): typeof btcAmount is not "number", or
btcAmount is less-or-equal zero under JavaScript comparison. -/
def invalidAmountGuard : JsArg → Bool
  | JsArg.num v => JNum.jle v (JNum.fin 0)
  | JsArg.other => true

/-- The options object of compareExchanges, defaulting to partial fills
allowed. -/
structure Options where
  partialFill : Bool
deriving DecidableEq, Repr

/-- The two venues of the comparison. -/
inductive Exchange where
  | binance
  | btcTurk
deriving DecidableEq, Repr

/-- The record returned by compareExchanges (src/orderbook.js lines
176-187): the two venue fill results, the per-unit prices (both the raw
quotient used for ranking and its toFixed(8) form placed in the returned
object), the winner of the strict-less comparison, and the spread. -/
structure CompareResult where
  binance : FillResult
  btcTurk : FillResult
  binancePricePerBTC : JNum
  btcturkPricePerBTC : JNum
  binancePriceFixed : JNum
  btcTurkPriceFixed : JNum
  betterExchange : Exchange
  priceDifferencePercent : JNum
deriving DecidableEq, Repr

/-- The isZero helper of compareExchanges (src/orderbook.js line 155): the
value is not a number, is NaN, or is less-or-equal zero. Fill results
always carry numbers, so the typeof branch reduces to the NaN and
comparison checks. -/
def isZeroFilled (v : JNum) : Bool :=
  match v with
  | JNum.nan => true
  | x => JNum.jle x (JNum.fin 0)

/-- The result object assembled by compareExchanges (src/orderbook.js lines
162-187) from the two fill results: the per-unit prices are the plain
quotients, the winner comes from the strict-less comparison on them, and
the spread is their absolute difference over their minimum, times 100,
rounded to 8 decimal places. -/
def mkCompareResult (binanceResult btcturkResult : FillResult) : CompareResult :=
  { binance := binanceResult
    btcTurk := btcturkResult
    binancePricePerBTC := JNum.div binanceResult.usdtNeeded binanceResult.filledBtc
    btcturkPricePerBTC := JNum.div btcturkResult.usdtNeeded btcturkResult.filledBtc
    binancePriceFixed :=
      jround8 (JNum.div binanceResult.usdtNeeded binanceResult.filledBtc)
    btcTurkPriceFixed :=
      jround8 (JNum.div btcturkResult.usdtNeeded btcturkResult.filledBtc)
    betterExchange :=
      if JNum.jlt (JNum.div binanceResult.usdtNeeded binanceResult.filledBtc)
          (JNum.div btcturkResult.usdtNeeded btcturkResult.filledBtc) then
        Exchange.binance
      else Exchange.btcTurk
    priceDifferencePercent :=
      jround8
        (((JNum.jabs
            ((JNum.div binanceResult.usdtNeeded binanceResult.filledBtc).sub
              (JNum.div btcturkResult.usdtNeeded btcturkResult.filledBtc))).div
          (JNum.jmin (JNum.div binanceResult.usdtNeeded binanceResult.filledBtc)
            (JNum.div btcturkResult.usdtNeeded btcturkResult.filledBtc))).mul
          (JNum.fin 100)) }

/-- The body of the try block of compareExchanges (src/orderbook.js lines
138-187), with the two order-book fetches abstracted as already-resolved
outcomes: any failed fetch propagates, each venue's fill is computed, a
zero fill on either venue raises the zero-liquidity error, and otherwise
the ranked result is assembled. -/
def compareBody (binanceBook btcturkBook : Except Err (List (JNum × JNum)))
    (btcAmount : JNum) (partialFill : Bool) : Except Err CompareResult :=
  match binanceBook with
  | Except.error e => Except.error e
  | Except.ok binance =>
    match btcturkBook with
    | Except.error e => Except.error e
    | Except.ok btcturk =>
      match calculateUsdtNeeded binance btcAmount partialFill with
      | Except.error e => Except.error e
      | Except.ok binanceResult =>
        match calculateUsdtNeeded btcturk btcAmount partialFill with
        | Except.error e => Except.error e
        | Except.ok btcturkResult =>
          if isZeroFilled binanceResult.filledBtc ||
              isZeroFilled btcturkResult.filledBtc then
            Except.error Err.zeroFilled
          else
            Except.ok (mkCompareResult binanceResult btcturkResult)

/-- compareExchanges (src/orderbook.js lines 128-192): the amount guard
runs before the try block, so its error escapes as-is; every failure
inside the try block (fetch, fill, zero-fill check) is caught and
rethrown as the single generic comparison error. -/
def compareExchanges (binanceBook btcturkBook : Except Err (List (JNum × JNum)))
    (btcAmount : JsArg) (options : Options := { partialFill := true }) :
    Except Err CompareResult :=
  if invalidAmountGuard btcAmount then
    Except.error Err.invalidAmount
  else
    match btcAmount with
    | JsArg.other => Except.error Err.invalidAmount
    | JsArg.num v =>
        match compareBody binanceBook btcturkBook v options.partialFill with
        | Except.error _ => Except.error Err.comparisonFailed
        | Except.ok r => Except.ok r

/-- The observable outcome of one runComparison call. -/
inductive RunOutcome where
  | invalidInput
  | noLiquidityInfo
  | comparedOk : CompareResult → RunOutcome
  | errorReported
deriving DecidableEq, Repr

/-- runComparison (src/unnamed/part_000 lines 196-234): validates the
amount, calls compareExchanges with an options object built from its
partialFill parameter, prints the informational no-liquidity message when
both returned filled amounts are strictly equal to zero, prints the
comparison otherwise, and reports any thrown error. -/
def runComparison (binanceBook btcturkBook : Except Err (List (JNum × JNum)))
    (btcAmount : JsArg) (partialFill : Bool := false) : RunOutcome :=
  if invalidAmountGuard btcAmount then
    RunOutcome.invalidInput
  else
    match compareExchanges binanceBook btcturkBook btcAmount { partialFill := partialFill } with
    | Except.error _ => RunOutcome.errorReported
    | Except.ok result =>
        if JNum.jeq result.binance.filledBtc (JNum.fin 0) &&
            JNum.jeq result.btcTurk.filledBtc (JNum.fin 0) then
          RunOutcome.noLiquidityInfo
        else
          RunOutcome.comparedOk result

/-- A book whose parsed prices and quantities are all finite, embedded
into the JavaScript number domain. -/
def embedBook (book : List (ℚ × ℚ)) : List (JNum × JNum) :=
  book.map (fun pq => (JNum.fin pq.1, JNum.fin pq.2))

/-- The fill walk restricted to finite values, carried out in exact
rational arithmetic: returns (remaining, totalCost, filled). -/
def fillQ : List (ℚ × ℚ) → ℚ → ℚ × ℚ × ℚ
  | [], r => (r, 0, 0)
  | (p, q) :: rest, r =>
      if r ≤ q then (0, r * p, r)
      else
        ((fillQ rest (r - q)).1, q * p + (fillQ rest (r - q)).2.1,
          q + (fillQ rest (r - q)).2.2)

/-- Total quantity available across the levels of a book. -/
def depth (book : List (ℚ × ℚ)) : ℚ := (book.map Prod.snd).sum

/-- The rational fill result mirroring FillResult on finite values. -/
structure FillResultQ where
  usdtNeeded : ℚ
  filledBtc : ℚ
  unfilledBtc : ℚ
  isPartial : Bool
deriving DecidableEq, Repr

/-- calculateUsdtNeeded restricted to finite inputs, in exact rational
arithmetic. -/
def calcQ (book : List (ℚ × ℚ)) (a : ℚ) (pf : Bool) : Except Err FillResultQ :=
  let w := fillQ book a
  let remaining := if w.2.2 = 0 then a else w.1
  if !(decide (remaining = 0)) && !pf then
    Except.error Err.insufficientLiquidity
  else
    Except.ok
      { usdtNeeded := round8 w.2.1
        filledBtc := round8 w.2.2
        unfilledBtc := round8 remaining
        isPartial := !(decide (remaining = 0)) }

theorem embedBook_cons (p q : ℚ) (rest : List (ℚ × ℚ)) :
    embedBook ((p, q) :: rest) = (JNum.fin p, JNum.fin q) :: embedBook rest := rfl

theorem fillLoop_embed (book : List (ℚ × ℚ)) (r c f : ℚ) :
    fillLoop (embedBook book) (JNum.fin r) (JNum.fin c) (JNum.fin f) =
      (JNum.fin (fillQ book r).1, JNum.fin (c + (fillQ book r).2.1),
        JNum.fin (f + (fillQ book r).2.2)) := by
  induction book generalizing r c f with
  | nil => simp [fillLoop, embedBook, fillQ]
  | cons pq rest ih =>
      obtain ⟨p, q⟩ := pq
      rw [embedBook_cons]
      simp only [fillLoop, fillQ]
      by_cases h : r ≤ q
      · simp [JNum.jle, h, JNum.add, JNum.mul]
      · simp [JNum.jle, h, JNum.add, JNum.mul, JNum.sub, JNum.neg, ih,
          sub_eq_add_neg, add_assoc]

theorem calculateUsdtNeeded_embed (book : List (ℚ × ℚ)) (a : ℚ) (pf : Bool) :
    calculateUsdtNeeded (embedBook book) (JNum.fin a) pf =
      (calcQ book a pf).map
        (fun s =>
          { usdtNeeded := JNum.fin s.usdtNeeded
            filledBtc := JNum.fin s.filledBtc
            unfilledBtc := JNum.fin s.unfilledBtc
            isPartial := s.isPartial }) := by
  unfold calculateUsdtNeeded calcQ
  rw [fillLoop_embed]
  rcases pf with _ | _ <;>
    by_cases h2 : (fillQ book a).2.2 = 0 <;>
      by_cases h3 : a = 0 <;>
        by_cases h4 : (fillQ book a).1 = 0 <;>
          simp_all [JNum.jeq, jround8, Except.map]

theorem depth_nil : depth [] = 0 := rfl

theorem depth_cons (p q : ℚ) (rest : List (ℚ × ℚ)) :
    depth ((p, q) :: rest) = q + depth rest := by
  simp [depth]

theorem depth_nonneg (book : List (ℚ × ℚ)) (hq : ∀ pq ∈ book, 0 ≤ pq.2) :
    0 ≤ depth book := by
  induction book with
  | nil => simp [depth]
  | cons pq rest ih =>
      obtain ⟨p, q⟩ := pq
      rw [depth_cons]
      have h1 : 0 ≤ q := hq (p, q) (List.mem_cons_self _ _)
      have h2 : 0 ≤ depth rest := ih fun x hx => hq x (List.mem_cons_of_mem _ hx)
      linarith

theorem fillQ_mass (book : List (ℚ × ℚ)) (r : ℚ) :
    (fillQ book r).1 + (fillQ book r).2.2 = r := by
  induction book generalizing r with
  | nil => simp [fillQ]
  | cons pq rest ih =>
      obtain ⟨p, q⟩ := pq
      by_cases h : r ≤ q
      · simp [fillQ, h]
      · simp only [fillQ, h, if_false]
        have := ih (r - q)
        linarith

theorem fillQ_underfill (book : List (ℚ × ℚ)) (r : ℚ)
    (hq : ∀ pq ∈ book, 0 ≤ pq.2) (hlt : depth book < r) :
    fillQ book r =
      (r - depth book, (book.map (fun pq => pq.2 * pq.1)).sum, depth book) := by
  induction book generalizing r with
  | nil => simp [fillQ, depth]
  | cons pq rest ih =>
      obtain ⟨p, q⟩ := pq
      have hq0 : 0 ≤ q := hq (p, q) (List.mem_cons_self _ _)
      have hrest : ∀ x ∈ rest, 0 ≤ x.2 := fun x hx => hq x (List.mem_cons_of_mem _ hx)
      have hdrest : 0 ≤ depth rest := depth_nonneg rest hrest
      rw [depth_cons] at hlt
      have hqr : ¬ r ≤ q := by linarith
      have hrec := ih (r - q) hrest (by linarith)
      simp only [fillQ, hqr, if_false, hrec, depth_cons, List.map_cons, List.sum_cons]
      refine Prod.ext ?_ (Prod.ext ?_ ?_) <;> simp <;> ring

theorem fillQ_remaining_zero (book : List (ℚ × ℚ)) (r : ℚ)
    (hq : ∀ pq ∈ book, 0 ≤ pq.2) (h0 : 0 < r) (hle : r ≤ depth book) :
    (fillQ book r).1 = 0 := by
  induction book generalizing r with
  | nil =>
      rw [depth_nil] at hle
      linarith
  | cons pq rest ih =>
      obtain ⟨p, q⟩ := pq
      rw [depth_cons] at hle
      by_cases h : r ≤ q
      · simp [fillQ, h]
      · simp only [fillQ, h, if_false]
        exact ih (r - q) (fun x hx => hq x (List.mem_cons_of_mem _ hx))
          (by linarith) (by linarith)

theorem fillQ_cost_nonneg (book : List (ℚ × ℚ)) (r : ℚ)
    (hpq : ∀ pq ∈ book, 0 ≤ pq.1 ∧ 0 ≤ pq.2) (hr : 0 ≤ r) :
    0 ≤ (fillQ book r).2.1 := by
  induction book generalizing r with
  | nil => simp [fillQ]
  | cons pq rest ih =>
      obtain ⟨p, q⟩ := pq
      have hp : 0 ≤ p := (hpq (p, q) (List.mem_cons_self _ _)).1
      have hq0 : 0 ≤ q := (hpq (p, q) (List.mem_cons_self _ _)).2
      by_cases h : r ≤ q
      · simp only [fillQ, h, if_true]
        exact mul_nonneg hr hp
      · simp only [fillQ, h, if_false]
        have hrec := ih (r - q) (fun x hx => hpq x (List.mem_cons_of_mem _ hx))
          (by linarith)
        have : 0 ≤ q * p := mul_nonneg hq0 hp
        linarith

theorem fillQ_cost_mono (book : List (ℚ × ℚ)) (x y : ℚ)
    (hpq : ∀ pq ∈ book, 0 ≤ pq.1 ∧ 0 ≤ pq.2) (hx : 0 ≤ x) (hxy : x ≤ y) :
    (fillQ book x).2.1 ≤ (fillQ book y).2.1 := by
  induction book generalizing x y with
  | nil => simp [fillQ]
  | cons pq rest ih =>
      obtain ⟨p, q⟩ := pq
      have hp : 0 ≤ p := (hpq (p, q) (List.mem_cons_self _ _)).1
      have hq0 : 0 ≤ q := (hpq (p, q) (List.mem_cons_self _ _)).2
      have hrest : ∀ z ∈ rest, 0 ≤ z.1 ∧ 0 ≤ z.2 :=
        fun z hz => hpq z (List.mem_cons_of_mem _ hz)
      by_cases hxq : x ≤ q
      · by_cases hyq : y ≤ q
        · simp only [fillQ, hxq, hyq, if_true]
          exact mul_le_mul_of_nonneg_right hxy hp
        · simp only [fillQ, hxq, hyq, if_true, if_false]
          have h1 : x * p ≤ q * p := mul_le_mul_of_nonneg_right hxq hp
          have h2 : 0 ≤ (fillQ rest (y - q)).2.1 :=
            fillQ_cost_nonneg rest (y - q) hrest (by linarith)
          linarith
      · have hyq : ¬ y ≤ q := fun hc => hxq (le_trans hxy hc)
        simp only [fillQ, hxq, hyq, if_false]
        have hrec := ih (x - q) (y - q) hrest (by linarith) (by linarith)
        linarith

theorem round8_abs_sub (x : ℚ) : |round8 x - x| ≤ 1 / 200000000 := by
  unfold round8
  have h := abs_sub_round (x * 100000000)
  rw [abs_sub_comm] at h
  have : |(round (x * 100000000) : ℚ) / 100000000 - x| =
      |(round (x * 100000000) : ℚ) - x * 100000000| / 100000000 := by
    rw [← abs_of_pos (show (0:ℚ) < 100000000 by norm_num), ← abs_div]
    congr 1
    field_simp
    ring
  rw [this]
  rw [div_le_div_iff₀ (by norm_num) (by norm_num)]
  nlinarith [h]

theorem round8_mono (x y : ℚ) (h : x ≤ y) : round8 x ≤ round8 y := by
  unfold round8
  have hf : round (x * 100000000) ≤ round (y * 100000000) := by
    rw [round_eq, round_eq]
    exact Int.floor_le_floor (by linarith)
  have : ((round (x * 100000000) : ℤ) : ℚ) ≤ ((round (y * 100000000) : ℤ) : ℚ) := by
    exact_mod_cast hf
  linarith

theorem round8_zero : round8 0 = 0 := by
  unfold round8
  norm_num

theorem calcQ_sum (book : List (ℚ × ℚ)) (a : ℚ) (pf : Bool) (s : FillResultQ)
    (hok : calcQ book a pf = Except.ok s) :
    |s.filledBtc + s.unfilledBtc - a| ≤ 1 / 100000000 := by
  have key : ∀ F R : ℚ, F + R = a → |round8 F + round8 R - a| ≤ 1 / 100000000 := by
    intro F R hFR
    have h1 := round8_abs_sub F
    have h2 := round8_abs_sub R
    rw [show round8 F + round8 R - a = (round8 F - F) + (round8 R - R) by linarith]
    refine le_trans (abs_add _ _) ?_
    linarith
  simp only [calcQ] at hok
  split at hok
  · rename_i h2
    split at hok
    · simp at hok
    · rw [Except.ok.injEq] at hok
      subst hok
      simp only
      exact key _ _ (by rw [h2]; ring)
  · split at hok
    · simp at hok
    · rw [Except.ok.injEq] at hok
      subst hok
      simp only
      have := fillQ_mass book a
      exact key _ _ (by linarith)

theorem calcQ_underfill (book : List (ℚ × ℚ)) (a : ℚ) (pf : Bool)
    (hq : ∀ pq ∈ book, 0 ≤ pq.2) (ha : 0 < a) (hd : depth book < a) :
    calcQ book a pf =
      if pf then
        Except.ok
          { usdtNeeded := round8 ((book.map (fun pq => pq.2 * pq.1)).sum)
            filledBtc := round8 (depth book)
            unfilledBtc := round8 (a - depth book)
            isPartial := true }
      else Except.error Err.insufficientLiquidity := by
  simp only [calcQ]
  rw [fillQ_underfill book a hq hd]
  simp only
  have hrem : (if depth book = 0 then a else a - depth book) = a - depth book := by
    split
    · rename_i h
      rw [h]
      ring
    · rfl
  rw [hrem]
  have hne : ¬ (a - depth book = 0) := by
    intro hc
    have : depth book = a := by linarith
    linarith
  rcases pf with _ | _ <;> simp [hne]

theorem calcQ_full (book : List (ℚ × ℚ)) (r : ℚ) (pf : Bool)
    (hq : ∀ pq ∈ book, 0 ≤ pq.2) (h0 : 0 < r) (hle : r ≤ depth book) :
    calcQ book r pf =
      Except.ok
        { usdtNeeded := round8 (fillQ book r).2.1
          filledBtc := round8 r
          unfilledBtc := 0
          isPartial := false } := by
  have hrem := fillQ_remaining_zero book r hq h0 hle
  have hmass := fillQ_mass book r
  have hfill : (fillQ book r).2.2 = r := by linarith
  simp only [calcQ]
  rw [hfill, hrem]
  simp [h0.ne.symm, round8_zero]

/-- C1: for every ask book of finite non-negative prices and quantities and
every positive target amount on which calculateUsdtNeeded returns a result,
the returned filledBtc plus unfilledBtc equals the requested amount to
within 1e-8. -/
theorem c1_filled_plus_unfilled_eq_target (book : List (ℚ × ℚ)) (a : ℚ)
    (pf : Bool) (res : FillResult)
    (hpq : ∀ pq ∈ book, 0 ≤ pq.1 ∧ 0 ≤ pq.2) (ha : 0 < a)
    (hok : calculateUsdtNeeded (embedBook book) (JNum.fin a) pf = Except.ok res) :
    ∃ f u : ℚ, res.filledBtc = JNum.fin f ∧ res.unfilledBtc = JNum.fin u ∧
      |f + u - a| ≤ 1 / 100000000 := by
  rw [calculateUsdtNeeded_embed] at hok
  cases hcalc : calcQ book a pf with
  | error e =>
      rw [hcalc] at hok
      simp [Except.map] at hok
  | ok s =>
      rw [hcalc] at hok
      simp only [Except.map, Except.ok.injEq] at hok
      subst hok
      exact ⟨s.filledBtc, s.unfilledBtc, rfl, rfl, calcQ_sum book a pf s hcalc⟩

/-- Witness for C1: one level of price 100 and quantity 1, target one half,
full fill required. -/
theorem c1_witness :
    ∃ res : FillResult, ∃ f u : ℚ,
      calculateUsdtNeeded (embedBook [(100, 1)]) (JNum.fin (1 / 2)) false =
        Except.ok res ∧
      res.filledBtc = JNum.fin f ∧ res.unfilledBtc = JNum.fin u ∧
      |f + u - 1 / 2| ≤ 1 / 100000000 := by
  have hok : calculateUsdtNeeded (embedBook [(100, 1)]) (JNum.fin (1 / 2)) false =
      Except.ok
        { usdtNeeded := JNum.fin 50, filledBtc := JNum.fin (1 / 2),
          unfilledBtc := JNum.fin 0, isPartial := false } := by
    rw [calculateUsdtNeeded_embed,
      calcQ_full [(100, 1)] (1 / 2) false (by norm_num) (by norm_num)
        (by norm_num [depth])]
    simp [Except.map, fillQ, round8, round_eq]
    norm_num
  obtain ⟨f, u, h1, h2, h3⟩ :=
    c1_filled_plus_unfilled_eq_target [(100, 1)] (1 / 2) false _
      (by norm_num) (by norm_num) hok
  exact ⟨_, f, u, hok, h1, h2, h3⟩

/-- C2: for every ask book of finite non-negative quantities whose total
depth is strictly below the positive target amount, calculateUsdtNeeded
with partialFill = false fails with the insufficient-liquidity error. -/
theorem c2_insufficient_liquidity (book : List (ℚ × ℚ)) (a : ℚ)
    (hq : ∀ pq ∈ book, 0 ≤ pq.2) (ha : 0 < a) (hd : depth book < a) :
    calculateUsdtNeeded (embedBook book) (JNum.fin a) false =
      Except.error Err.insufficientLiquidity := by
  rw [calculateUsdtNeeded_embed, calcQ_underfill book a false hq ha hd]
  rfl

/-- Witness for C2: one level of quantity 1, target 2. -/
theorem c2_witness :
    calculateUsdtNeeded (embedBook [(100, 1)]) (JNum.fin 2) false =
      Except.error Err.insufficientLiquidity :=
  c2_insufficient_liquidity [(100, 1)] 2 (by norm_num) (by norm_num)
    (by norm_num [depth])

/-- C6: for every ask book of finite non-negative quantities whose total
depth is strictly below the positive target amount, calculateUsdtNeeded
with partialFill = true succeeds, marks the result partial, and fills
exactly the total depth (rounded to 8 decimal places). -/
theorem c6_partial_fill_fills_depth (book : List (ℚ × ℚ)) (a : ℚ)
    (hq : ∀ pq ∈ book, 0 ≤ pq.2) (ha : 0 < a) (hd : depth book < a) :
    ∃ res, calculateUsdtNeeded (embedBook book) (JNum.fin a) true = Except.ok res ∧
      res.isPartial = true ∧ res.filledBtc = JNum.fin (round8 (depth book)) := by
  rw [calculateUsdtNeeded_embed, calcQ_underfill book a true hq ha hd]
  exact ⟨_, rfl, rfl, rfl⟩

/-- Witness for C6: one level of quantity 1, target 2, partial fills
allowed. -/
theorem c6_witness :
    ∃ res, calculateUsdtNeeded (embedBook [(100, 1)]) (JNum.fin 2) true =
        Except.ok res ∧
      res.isPartial = true ∧ res.filledBtc = JNum.fin (round8 (depth [(100, 1)])) :=
  c6_partial_fill_fills_depth [(100, 1)] 2 (by norm_num) (by norm_num)
    (by norm_num [depth])

/-- C7: for a fixed ask book of finite non-negative prices and quantities
and target amounts 0 < x less-or-equal y less-or-equal total depth, both
calls succeed and the quote cost for x is at most the quote cost for y. -/
theorem c7_cost_monotone (book : List (ℚ × ℚ)) (x y : ℚ) (pf : Bool)
    (hpq : ∀ pq ∈ book, 0 ≤ pq.1 ∧ 0 ≤ pq.2)
    (hx : 0 < x) (hxy : x ≤ y) (hyd : y ≤ depth book) :
    ∃ rx ry cx cy,
      calculateUsdtNeeded (embedBook book) (JNum.fin x) pf = Except.ok rx ∧
      calculateUsdtNeeded (embedBook book) (JNum.fin y) pf = Except.ok ry ∧
      rx.usdtNeeded = JNum.fin cx ∧ ry.usdtNeeded = JNum.fin cy ∧ cx ≤ cy := by
  have hq : ∀ pq ∈ book, 0 ≤ pq.2 := fun pq h => (hpq pq h).2
  have hy : 0 < y := lt_of_lt_of_le hx hxy
  have hxd : x ≤ depth book := le_trans hxy hyd
  rw [calculateUsdtNeeded_embed, calcQ_full book x pf hq hx hxd,
    calculateUsdtNeeded_embed, calcQ_full book y pf hq hy hyd]
  refine ⟨_, _, round8 (fillQ book x).2.1, round8 (fillQ book y).2.1,
    rfl, rfl, rfl, rfl, ?_⟩
  exact round8_mono _ _ (fillQ_cost_mono book x y hpq (le_of_lt hx) hxy)

/-- Witness for C7: one level of price 100 and quantity 2, targets 1 and 2. -/
theorem c7_witness :
    ∃ rx ry cx cy,
      calculateUsdtNeeded (embedBook [(100, 2)]) (JNum.fin 1) false = Except.ok rx ∧
      calculateUsdtNeeded (embedBook [(100, 2)]) (JNum.fin 2) false = Except.ok ry ∧
      rx.usdtNeeded = JNum.fin cx ∧ ry.usdtNeeded = JNum.fin cy ∧ cx ≤ cy :=
  c7_cost_monotone [(100, 2)] 1 2 false (by norm_num) (by norm_num) (by norm_num)
    (by norm_num [depth])

theorem jlt_self (x : JNum) : JNum.jlt x x = false := by
  cases x with
  | fin a => simp [JNum.jlt]
  | nan => rfl
  | inf s => cases s <;> rfl

theorem compareBody_zeroFilled (bB tB : Except Err (List (JNum × JNum)))
    (v : JNum) (pf : Bool) (B T : List (JNum × JNum)) (rB rT : FillResult)
    (hB : bB = Except.ok B) (hT : tB = Except.ok T)
    (hcB : calculateUsdtNeeded B v pf = Except.ok rB)
    (hcT : calculateUsdtNeeded T v pf = Except.ok rT)
    (hz : (isZeroFilled rB.filledBtc || isZeroFilled rT.filledBtc) = true) :
    compareBody bB tB v pf = Except.error Err.zeroFilled := by
  subst hB hT
  simp [compareBody, hcB, hcT, hz]

theorem compareBody_ok_better (bB tB : Except Err (List (JNum × JNum)))
    (v : JNum) (pf : Bool) (r : CompareResult)
    (hok : compareBody bB tB v pf = Except.ok r) :
    r.betterExchange =
      if JNum.jlt r.binancePricePerBTC r.btcturkPricePerBTC then Exchange.binance
      else Exchange.btcTurk := by
  unfold compareBody at hok
  split at hok
  · simp at hok
  · split at hok
    · simp at hok
    · split at hok
      · simp at hok
      · split at hok
        · simp at hok
        · split at hok
          · simp at hok
          · rw [Except.ok.injEq] at hok
            subst hok
            rfl

theorem compareExchanges_ok_body (bB tB : Except Err (List (JNum × JNum)))
    (arg : JsArg) (o : Options) (r : CompareResult)
    (hok : compareExchanges bB tB arg o = Except.ok r) :
    ∃ v, arg = JsArg.num v ∧ compareBody bB tB v o.partialFill = Except.ok r := by
  unfold compareExchanges at hok
  split at hok
  · simp at hok
  · cases arg with
    | other => simp at hok
    | num v =>
        refine ⟨v, rfl, ?_⟩
        cases hb : compareBody bB tB v o.partialFill with
        | error e =>
            simp [hb] at hok
        | ok r2 =>
            simp [hb] at hok
            rw [hok]

theorem calc_empty_partial :
    calculateUsdtNeeded [] (JNum.fin (1 / 1000)) true =
      Except.ok
        { usdtNeeded := JNum.fin 0, filledBtc := JNum.fin 0,
          unfilledBtc := JNum.fin (1 / 1000), isPartial := true } := by
  simp [calculateUsdtNeeded, fillLoop, JNum.jeq, jround8, round8, round_eq]
  norm_num

theorem calc_one_level_full :
    calculateUsdtNeeded [(JNum.fin 100, JNum.fin 1)] (JNum.fin 1) true =
      Except.ok
        { usdtNeeded := JNum.fin 100, filledBtc := JNum.fin 1,
          unfilledBtc := JNum.fin 0, isPartial := false } := by
  simp [calculateUsdtNeeded, fillLoop, JNum.jle, JNum.jeq, JNum.add, JNum.mul,
    jround8, round8, round_eq]
  norm_num

/-- C4: when both fetches succeed and both fills return results but at least
one venue's filled amount fails the positivity check (zero, negative, or
NaN), the comparison body raises the zero-liquidity error and
compareExchanges fails (wrapped at its boundary) instead of returning a
ranking. -/
theorem c4_zero_fill_fails_comparison (bB tB : Except Err (List (JNum × JNum)))
    (v : JNum) (o : Options) (B T : List (JNum × JNum)) (rB rT : FillResult)
    (hguard : invalidAmountGuard (JsArg.num v) = false)
    (hB : bB = Except.ok B) (hT : tB = Except.ok T)
    (hcB : calculateUsdtNeeded B v o.partialFill = Except.ok rB)
    (hcT : calculateUsdtNeeded T v o.partialFill = Except.ok rT)
    (hz : (isZeroFilled rB.filledBtc || isZeroFilled rT.filledBtc) = true) :
    compareBody bB tB v o.partialFill = Except.error Err.zeroFilled ∧
    compareExchanges bB tB (JsArg.num v) o = Except.error Err.comparisonFailed := by
  have hbody := compareBody_zeroFilled bB tB v o.partialFill B T rB rT hB hT hcB hcT hz
  refine ⟨hbody, ?_⟩
  simp [compareExchanges, hguard, hbody]

/-- Witness for C4: both venues return empty ask lists, partial fills
allowed, target one thousandth. -/
theorem c4_witness :
    compareBody (Except.ok []) (Except.ok []) (JNum.fin (1 / 1000)) true =
        Except.error Err.zeroFilled ∧
    compareExchanges (Except.ok []) (Except.ok [])
        (JsArg.num (JNum.fin (1 / 1000))) { partialFill := true } =
      Except.error Err.comparisonFailed :=
  c4_zero_fill_fails_comparison (Except.ok []) (Except.ok [])
    (JNum.fin (1 / 1000)) { partialFill := true } [] []
    { usdtNeeded := JNum.fin 0, filledBtc := JNum.fin 0,
      unfilledBtc := JNum.fin (1 / 1000), isPartial := true }
    { usdtNeeded := JNum.fin 0, filledBtc := JNum.fin 0,
      unfilledBtc := JNum.fin (1 / 1000), isPartial := true }
    (by norm_num [invalidAmountGuard, JNum.jle]) rfl rfl
    calc_empty_partial calc_empty_partial
    (by norm_num [isZeroFilled, JNum.jle])

/-- C9: whenever compareExchanges returns a ranking whose two per-unit
prices are exactly equal, the better exchange is BtcTurk: the selection
uses a strict less-than on the Binance price, so ties resolve to the
second venue. -/
theorem c9_tie_selects_btcturk (bB tB : Except Err (List (JNum × JNum)))
    (arg : JsArg) (o : Options) (r : CompareResult)
    (hok : compareExchanges bB tB arg o = Except.ok r)
    (heq : r.binancePricePerBTC = r.btcturkPricePerBTC) :
    r.betterExchange = Exchange.btcTurk := by
  obtain ⟨v, _, hbody⟩ := compareExchanges_ok_body bB tB arg o r hok
  rw [compareBody_ok_better bB tB v o.partialFill r hbody, heq, jlt_self]
  simp

/-- Witness for C9: both venues have the single ask level (100, 1) and the
target is 1, so both unit prices are exactly 100. -/
theorem c9_witness :
    (mkCompareResult
        { usdtNeeded := JNum.fin 100, filledBtc := JNum.fin 1,
          unfilledBtc := JNum.fin 0, isPartial := false }
        { usdtNeeded := JNum.fin 100, filledBtc := JNum.fin 1,
          unfilledBtc := JNum.fin 0, isPartial := false }).betterExchange =
      Exchange.btcTurk :=
  c9_tie_selects_btcturk (Except.ok [(JNum.fin 100, JNum.fin 1)])
    (Except.ok [(JNum.fin 100, JNum.fin 1)]) (JsArg.num (JNum.fin 1))
    { partialFill := true } _
    (by
      have h := calc_one_level_full
      simp [compareExchanges, invalidAmountGuard, JNum.jle, compareBody, h,
        isZeroFilled]
      norm_num)
    rfl

/-- Counterexample for C3: NaN and positive Infinity are not positive finite
numbers, yet the amount guard of compareExchanges lets both through (the
JavaScript comparison NaN less-or-equal 0 is false, and Infinity
less-or-equal 0 is false), so the call does not fail with the
invalid-amount error; with failing fetches it surfaces the generic
comparison error instead. -/
theorem c3_counterexample :
    compareExchanges (Except.error Err.fetchError) (Except.error Err.fetchError)
        (JsArg.num JNum.nan) { partialFill := true } =
      Except.error Err.comparisonFailed ∧
    compareExchanges (Except.error Err.fetchError) (Except.error Err.fetchError)
        (JsArg.num (JNum.inf true)) { partialFill := true } =
      Except.error Err.comparisonFailed ∧
    Err.comparisonFailed ≠ Err.invalidAmount := by
  refine ⟨?_, ?_, by simp⟩ <;>
    simp [compareExchanges, invalidAmountGuard, JNum.jle, compareBody]

/-- C3 amended: the compareExchanges amount guard fails with the
invalid-amount error exactly when the argument is not a number, is a
non-positive finite number, or is negative Infinity; NaN and positive
Infinity pass the validation and proceed into the comparison body. -/
theorem c3_amended_guard_characterization
    (bB tB : Except Err (List (JNum × JNum))) (arg : JsArg) (o : Options) :
    (compareExchanges bB tB arg o = Except.error Err.invalidAmount) ↔
      (arg = JsArg.other ∨ (∃ q : ℚ, arg = JsArg.num (JNum.fin q) ∧ q ≤ 0) ∨
        arg = JsArg.num (JNum.inf false)) := by
  cases arg with
  | other => simp [compareExchanges, invalidAmountGuard]
  | num v =>
      cases v with
      | fin q =>
          by_cases hq : q ≤ 0
          · simp [compareExchanges, invalidAmountGuard, JNum.jle, hq]
          · simp only [compareExchanges, invalidAmountGuard, JNum.jle]
            cases hb : compareBody bB tB (JNum.fin q) o.partialFill <;>
              simp [hb, hq]
      | nan =>
          simp only [compareExchanges, invalidAmountGuard, JNum.jle]
          cases hb : compareBody bB tB JNum.nan o.partialFill <;> simp [hb]
      | inf s =>
          cases s
          · simp [compareExchanges, invalidAmountGuard, JNum.jle]
          · simp only [compareExchanges, invalidAmountGuard, JNum.jle]
            cases hb : compareBody bB tB (JNum.inf true) o.partialFill <;>
              simp [hb]

/-- Counterexample for C8: a non-positive amount makes compareExchanges fail
with the invalid-amount error itself, not the generic comparison error: the
guard throws before the try block, so that failure kind escapes unwrapped. -/
theorem c8_counterexample :
    compareExchanges (Except.ok []) (Except.ok []) (JsArg.num (JNum.fin (-1)))
        { partialFill := true } = Except.error Err.invalidAmount ∧
    Err.invalidAmount ≠ Err.comparisonFailed := by
  refine ⟨?_, by simp⟩
  norm_num [compareExchanges, invalidAmountGuard, JNum.jle]

/-- C8 amended: every failure raised inside the try block of
compareExchanges (fetch, fill, or the zero-fill check) surfaces as the
single generic comparison error, but the invalid-amount guard failure is
raised before the try block and escapes unwrapped, so a failing call
surfaces one of exactly those two errors. -/
theorem c8_amended_error_surface (bB tB : Except Err (List (JNum × JNum)))
    (arg : JsArg) (o : Options) (e : Err)
    (herr : compareExchanges bB tB arg o = Except.error e) :
    e = Err.comparisonFailed ∨ e = Err.invalidAmount := by
  unfold compareExchanges at herr
  split at herr
  · right
    simp only [Except.error.injEq] at herr
    exact herr.symm
  · cases arg with
    | other =>
        right
        simp at herr
        exact herr.symm
    | num v =>
        cases hb : compareBody bB tB v o.partialFill with
        | error e2 =>
            simp [hb] at herr
            left
            exact herr.symm
        | ok r =>
            simp [hb] at herr

/-- Witness for C8 amended: a failing Binance fetch with a valid amount
surfaces the generic comparison error. -/
theorem c8_witness :
    Err.comparisonFailed = Err.comparisonFailed ∨
      Err.comparisonFailed = Err.invalidAmount :=
  c8_amended_error_surface (Except.error Err.fetchError)
    (Except.error Err.fetchError) (JsArg.num (JNum.fin 1))
    { partialFill := true } Err.comparisonFailed
    (by norm_num [compareExchanges, invalidAmountGuard, JNum.jle, compareBody])

/-- Counterexample for C5: with both venues returning empty ask lists,
partial fills allowed, and target one thousandth, every venue fills zero,
but runComparison does not reach the informational no-liquidity report: the
zero-fill check inside compareExchanges throws first, so the run exits
through the error-reporting path. -/
theorem c5_counterexample :
    runComparison (Except.ok []) (Except.ok [])
        (JsArg.num (JNum.fin (1 / 1000))) true = RunOutcome.errorReported ∧
    RunOutcome.errorReported ≠ RunOutcome.noLiquidityInfo := by
  refine ⟨?_, by simp⟩
  have hguard : invalidAmountGuard (JsArg.num (JNum.fin (1 / 1000))) = false := by
    norm_num [invalidAmountGuard, JNum.jle]
  have hbody : compareBody (Except.ok []) (Except.ok []) (JNum.fin (1 / 1000))
      true = Except.error Err.zeroFilled :=
    compareBody_zeroFilled (Except.ok []) (Except.ok []) (JNum.fin (1 / 1000))
      true [] []
      { usdtNeeded := JNum.fin 0, filledBtc := JNum.fin 0,
        unfilledBtc := JNum.fin (1 / 1000), isPartial := true }
      { usdtNeeded := JNum.fin 0, filledBtc := JNum.fin 0,
        unfilledBtc := JNum.fin (1 / 1000), isPartial := true }
      rfl rfl calc_empty_partial calc_empty_partial
      (by norm_num [isZeroFilled, JNum.jle])
  simp only [runComparison, compareExchanges, hguard, hbody,
    Bool.false_eq_true, if_false]

/-- C5 amended: when the amount passes the guard, both fetches succeed, both
fills return results, and every venue's filled amount fails the positivity
check, the run exits through the error-reporting path (the zero-fill throw
inside compareExchanges, wrapped into the generic comparison error); the
informational no-liquidity report path is not reached. -/
theorem c5_amended_total_illiquidity_errors
    (bB tB : Except Err (List (JNum × JNum))) (v : JNum) (pf : Bool)
    (B T : List (JNum × JNum)) (rB rT : FillResult)
    (hguard : invalidAmountGuard (JsArg.num v) = false)
    (hB : bB = Except.ok B) (hT : tB = Except.ok T)
    (hcB : calculateUsdtNeeded B v pf = Except.ok rB)
    (hcT : calculateUsdtNeeded T v pf = Except.ok rT)
    (hzB : isZeroFilled rB.filledBtc = true)
    (hzT : isZeroFilled rT.filledBtc = true) :
    runComparison bB tB (JsArg.num v) pf = RunOutcome.errorReported := by
  have hbody := compareBody_zeroFilled bB tB v pf B T rB rT hB hT hcB hcT
    (by rw [hzB, hzT]; rfl)
  simp [runComparison, hguard, compareExchanges, hbody]

/-- Witness for C5 amended: empty books on both venues, partial fills
allowed, target one thousandth. -/
theorem c5_witness :
    runComparison (Except.ok []) (Except.ok [])
        (JsArg.num (JNum.fin (1 / 1000))) true = RunOutcome.errorReported :=
  c5_amended_total_illiquidity_errors (Except.ok []) (Except.ok [])
    (JNum.fin (1 / 1000)) true [] []
    { usdtNeeded := JNum.fin 0, filledBtc := JNum.fin 0,
      unfilledBtc := JNum.fin (1 / 1000), isPartial := true }
    { usdtNeeded := JNum.fin 0, filledBtc := JNum.fin 0,
      unfilledBtc := JNum.fin (1 / 1000), isPartial := true }
    (by norm_num [invalidAmountGuard, JNum.jle]) rfl rfl
    calc_empty_partial calc_empty_partial
    (by norm_num [isZeroFilled, JNum.jle])
    (by norm_num [isZeroFilled, JNum.jle])

/-- C10: calculateUsdtNeeded invoked without its third argument disallows
partial fills while compareExchanges invoked without an options argument
allows them, and on an under-liquid book (one level of quantity 1, target
2) the former fails with insufficient liquidity while the latter returns a
ranking. -/
theorem c10_default_partial_fill_divergence :
    calculateUsdtNeeded (embedBook [(100, 1)]) (JNum.fin 2) =
      Except.error Err.insufficientLiquidity ∧
    ∃ r, compareExchanges (Except.ok (embedBook [(100, 1)]))
        (Except.ok (embedBook [(100, 1)])) (JsArg.num (JNum.fin 2)) =
      Except.ok r := by
  constructor
  · rw [calculateUsdtNeeded_embed,
      calcQ_underfill [(100, 1)] 2 false (by norm_num) (by norm_num)
        (by norm_num [depth])]
    rfl
  · have hcalc : calculateUsdtNeeded (embedBook [(100, 1)]) (JNum.fin 2) true =
        Except.ok
          { usdtNeeded := JNum.fin 100, filledBtc := JNum.fin 1,
            unfilledBtc := JNum.fin 1, isPartial := true } := by
      rw [calculateUsdtNeeded_embed,
        calcQ_underfill [(100, 1)] 2 true (by norm_num) (by norm_num)
          (by norm_num [depth])]
      simp [Except.map, depth, round8, round_eq]
      norm_num
    have hguard : invalidAmountGuard (JsArg.num (JNum.fin 2)) = false := by
      norm_num [invalidAmountGuard, JNum.jle]
    refine ⟨mkCompareResult
        { usdtNeeded := JNum.fin 100, filledBtc := JNum.fin 1,
          unfilledBtc := JNum.fin 1, isPartial := true }
        { usdtNeeded := JNum.fin 100, filledBtc := JNum.fin 1,
          unfilledBtc := JNum.fin 1, isPartial := true }, ?_⟩
    simp [compareExchanges, hguard, compareBody, hcalc, isZeroFilled, JNum.jle]
    norm_num
